import Mathlib

/-!
Verification development for the product-catalog extraction script
(src/src/main.py).  The Python source is shallowly embedded: pure string
manipulations become Lean functions on char lists, the page driven by
Playwright becomes an oracle of observations (summary text, row reads,
growth-wait outcomes), raised exceptions become error values, and the
possibly diverging collection loop takes a fuel argument (a result of
none models non-termination; the program itself has no iteration cap).
All character-level functions are kept structurally recursive so that
concrete runs reduce by rfl or decide.
-/

namespace IdenScrape

/-- Characters treated as whitespace by the embedding of Python str.strip;
the modelled domain is ASCII text (Python also strips other Unicode
whitespace, which never occurs in the runs considered here). -/
def stripChars (l : List Char) : List Char :=
  ((l.dropWhile Char.isWhitespace).reverse.dropWhile Char.isWhitespace).reverse

/-- Embedding of Python str.strip() for ASCII text. -/
def pyStrip (s : String) : String := ⟨stripChars s.data⟩

/-- Index of the leftmost occurrence of sep (as a contiguous subsequence)
in s, none if sep never occurs.  For nonempty sep this is the scan that
Python str.split performs. -/
def findOcc : List Char → List Char → Option Nat
  | sep, [] => if sep = [] then some 0 else none
  | sep, c :: rest =>
    if sep.isPrefixOf (c :: rest) then some 0
    else (findOcc sep rest).map (fun k => k + 1)

/-- One segment of Python str.split per unit of fuel: cut at the leftmost
occurrence of sep and recurse on what follows it.  Fuel s.length is always
sufficient for nonempty sep because every cut consumes at least one
character. -/
def pySplitGo (sep : List Char) : Nat → List Char → List (List Char)
  | 0, s => [s]
  | fuel + 1, s =>
    match findOcc sep s with
    | none => [s]
    | some k => s.take k :: pySplitGo sep fuel (s.drop (k + sep.length))

/-- Embedding of Python str.split(sep) on char lists, for nonempty sep
(Python raises on an empty separator; the script only splits on the
literals ":", "Shade", "Details", "Guarantee", "of", "products"). -/
def pySplitList (sep s : List Char) : List (List Char) :=
  pySplitGo sep s.length s

/-- Embedding of Python str.split(sep) on strings. -/
def pySplit (s sep : String) : List String :=
  (pySplitList sep.data s.data).map (fun l => (⟨l⟩ : String))

/-- Accumulate the value of a digit run, allowing the single underscores
between digits that Python int() accepts. -/
def digitsValAux : Nat → List Char → Option Nat
  | acc, [] => some acc
  | acc, c :: rest =>
    if c.isDigit then digitsValAux (acc * 10 + (c.toNat - 48)) rest
    else if c = '_' then
      match rest with
      | [] => none
      | d :: rest2 =>
        if d.isDigit then digitsValAux (acc * 10 + (d.toNat - 48)) rest2 else none
    else none

/-- Value of a nonempty digit run (with optional single underscores
between digits), none when malformed. -/
def digitsVal : List Char → Option Nat
  | [] => none
  | c :: rest => if c.isDigit then digitsValAux (c.toNat - 48) rest else none

/-- Embedding of Python int(str) after stripping: optional sign followed
by a nonempty digit run.  Modelled for ASCII digits. -/
def pyIntChars : List Char → Option Int
  | '-' :: rest => (digitsVal rest).map (fun n => -(n : Int))
  | '+' :: rest => (digitsVal rest).map (fun n => (n : Int))
  | l => (digitsVal l).map (fun n => (n : Int))

/-- Embedding of Python int(str): surrounding whitespace is ignored. -/
def pyInt (s : String) : Option Int := pyIntChars (stripChars s.data)

/-- The distinct failure modes of the extraction pass.  In the Python
source every one of them is caught by the except clauses of
extract_products and re-raised as RuntimeError; the embedding keeps them
apart.  timeout covers PlaywrightTimeoutError (missing summary locator or
a growth wait that never fires), dataError the int()/indexing failures on
the summary text, unboundRows the UnboundLocalError raised by
`for item in rows` when the while loop body never ran, and
malformedFragment the IndexError when a fragment lacks its delimiter. -/
inductive ExtractErr
  | timeout
  | dataError
  | unboundRows
  | malformedFragment
deriving Repr, DecidableEq

/-- A parsed product record; the keys written to the output file are
Product Name, ID, Shade, Details, Guarantee. -/
structure ProductRecord where
  name : String
  id : String
  shade : String
  details : String
  guarantee : String
deriving Repr, DecidableEq

/-- One raw catalog card as the script reads it: the text of the
div.h-12 title element and the texts of the div.p-3>div>div fragments. -/
structure RawItem where
  titleText : String
  innerTexts : List String
deriving Repr, DecidableEq

/-- Embedding of one conditional field line of extract_products:
inner_elements[idx].text_content().split(sep)[1].strip() when the
fragment exists (index error when the delimiter is missing), and the
empty string when it does not. -/
def pyField (texts : List String) (idx : Nat) (sep : String) : Except ExtractErr String :=
  match texts[idx]? with
  | some t =>
    match pySplit t sep with
    | _ :: x :: _ => .ok (pyStrip x)
    | _ => .error .malformedFragment
  | none => .ok ""

/-- Embedding of the per-item parsing block of extract_products
(lines 139 to 151 of main.py). -/
def parseItem (it : RawItem) : Except ExtractErr ProductRecord := do
  let name := pyStrip it.titleText
  let idText ← pyField it.innerTexts 0 ":"
  let shadeText ← pyField it.innerTexts 1 "Shade"
  let detailsText ← pyField it.innerTexts 2 "Details"
  let guaranteeText ← pyField it.innerTexts 3 "Guarantee"
  pure ⟨name, idText, shadeText, detailsText, guaranteeText⟩

/-- Parse every collected row in order, propagating the first failure,
as the for loop over rows does. -/
def parseRows : List RawItem → Except ExtractErr (List ProductRecord)
  | [] => .ok []
  | it :: rest => do
    let r ← parseItem it
    let rs ← parseRows rest
    pure (r :: rs)

/-- The observations the script can make of the catalog page.
summaryText is the text of the div containing "Showing " (none when the
locator never resolves and the read times out); rowsAt i is the result of
the i-th read of page.locator("div.grid>div.rounded-lg").all();
growthOk i tells whether the growth wait issued after the i-th read sees
the row count exceed the pre-trigger count in time. -/
structure CatalogPage where
  summaryText : Option String
  rowsAt : Nat → List RawItem
  growthOk : Nat → Bool

/-- Row count of the i-th read. -/
def rowCount (p : CatalogPage) (i : Nat) : Nat := (p.rowsAt i).length

/-- Embedding of lines 114 and 115 of main.py: read the summary text and
evaluate int(text.split("of")[1].split("products")[0].strip()).  An
absent summary is a timeout; a missing "of" segment or an unparsable
integer raises (IndexError or ValueError) and is a data error. -/
def parseSummaryTotal : Option String → Except ExtractErr Int
  | none => .error .timeout
  | some s =>
    match pySplit s "of" with
    | _ :: seg :: _ =>
      match pyInt (pyStrip ((pySplit seg "products").headD "")) with
      | some n => .ok n
      | none => .error .dataError
    | _ => .error .dataError

/-- Outcome of the collection loop: on .ok, the index of the read whose
rows flow into parsing (none when the loop body never ran, so that the
Python variable rows was never assigned), together with the number of
growth triggers (hover plus scroll gestures) issued. -/
structure CollectOut where
  outcome : Except ExtractErr (Option Nat)
  triggers : Nat
deriving Repr

/-- Embedding of the while loop of extract_products (lines 117 to 134).
State: fuel, the index i of the next row read, the Python variable
prev_count, and the number of growth triggers issued so far.  Each step
reads the rows, breaks when the count equals prev_count, triggers growth
and waits when the count is still below the expected total (a failed
wait is the fatal timeout; the trigger has already been issued), and
otherwise falls out of the loop because the while condition fails. -/
def collectLoop (p : CatalogPage) (total : Int) :
    Nat → Nat → Int → Nat → Option CollectOut
  | 0, _, _, _ => none
  | fuel + 1, i, prev, trig =>
    if ((rowCount p i : Int)) = prev then some ⟨.ok (some i), trig⟩
    else if ((rowCount p i : Int)) < total then
      if p.growthOk i then collectLoop p total fuel (i + 1) ((rowCount p i : Int)) (trig + 1)
      else some ⟨.error .timeout, trig + 1⟩
    else some ⟨.ok (some i), trig⟩

/-- Embedding of the collection phase of extract_products: parse the
expected total, and run the loop only when the initial count 0 is below
it (prev_count starts at -1, count at 0).  When the loop is skipped the
rows variable is never assigned. -/
def collectAll (p : CatalogPage) (fuel : Nat) : Option CollectOut :=
  match parseSummaryTotal p.summaryText with
  | .error e => some ⟨.error e, 0⟩
  | .ok total =>
    if 0 < total then collectLoop p total fuel 0 (-1) 0
    else some ⟨.ok none, 0⟩

/-- Embedding of extract_products as a whole: collect, then parse the
rows of the final read.  A loop that was never entered leaves rows
unbound, so the trailing for loop raises (UnboundLocalError, surfaced by
the script as RuntimeError). -/
def extract_products (p : CatalogPage) (fuel : Nat) :
    Option (Except ExtractErr (List ProductRecord) × Nat) :=
  match collectAll p fuel with
  | none => none
  | some ⟨.error e, t⟩ => some (.error e, t)
  | some ⟨.ok none, t⟩ => some (.error .unboundRows, t)
  | some ⟨.ok (some i), t⟩ =>
    match parseRows (p.rowsAt i) with
    | .ok recs => some (.ok recs, t)
    | .error e => some (.error e, t)

/-! ## Session persistence (save_session / load_session)

save_session stores the storage_state of the context together with
JSON.stringify(sessionStorage); load_session adds the stored cookies back
and injects an init script whose source embeds the stored JSON text
verbatim between single quotes.  The embedding models the three string
layers the stored session storage passes through: the JSON encoder
(JSON.stringify of a flat string map), the JavaScript single-quoted
string literal that the f-string splice produces, and JSON.parse inside
the init script.  When the literal is syntactically broken or JSON.parse
throws, the init script replays nothing. -/

/-- A cookie as the script handles it: an opaque attribute bag, passed
through unmodified (only name and value are modelled; the script never
inspects any attribute). -/
structure Cookie where
  name : String
  value : String
deriving Repr, DecidableEq

/-- The storage_state document captured by context.storage_state();
load_session reads only its cookies entry. -/
structure StorageState where
  cookies : List Cookie
deriving Repr, DecidableEq

/-- The session.json document: session_storage is the JSON text produced
by JSON.stringify(sessionStorage), storage_state the cookie capture. -/
structure SessionData where
  session_storage : String
  storage_state : StorageState
deriving Repr, DecidableEq

/-- The single-quote character, written by code point to keep it out of
the source text of literals. -/
def squote : Char := Char.ofNat 39

/-- JSON.stringify escaping of one character, modelled for printable
text: double quote and backslash gain a backslash; control characters
(which JSON.stringify would turn into escape sequences) are outside the
modelled domain and left unchanged. -/
def jsonEscape (l : List Char) : List Char :=
  l.flatMap (fun c =>
    if c = '"' then ['\\', '"']
    else if c = '\\' then ['\\', '\\']
    else [c])

/-- A JSON string token for s. -/
def jsonQuote (s : String) : List Char :=
  '"' :: (jsonEscape s.data ++ ['"'])

/-- One key colon value member of a JSON object. -/
def jsonPair (kv : String × String) : List Char :=
  jsonQuote kv.1 ++ ':' :: jsonQuote kv.2

/-- The comma-separated member list of a JSON object. -/
def joinPairs : List (String × String) → List Char
  | [] => []
  | [kv] => jsonPair kv
  | kv :: rest => jsonPair kv ++ ',' :: joinPairs rest

/-- JSON.stringify of a flat string-to-string map in entry order. -/
def jsonObj (m : List (String × String)) : String :=
  ⟨'{' :: (joinPairs m ++ ['}'])⟩

/-- Embedding of save_session (lines 17 to 30): capture the cookie jar
and JSON.stringify(sessionStorage) into the session document. -/
def save_session (cookies : List Cookie) (sessionStorage : List (String × String)) :
    SessionData :=
  ⟨jsonObj sessionStorage, ⟨cookies⟩⟩

/-- The character a JavaScript single-character escape sequence denotes
(backslash followed by c inside a string literal); characters without a
special meaning denote themselves.  Hex and unicode escapes are not
modelled (JSON.stringify of printable text never produces them). -/
def jsEsc (c : Char) : Char :=
  if c = 'n' then Char.ofNat 10
  else if c = 't' then Char.ofNat 9
  else if c = 'r' then Char.ofNat 13
  else if c = 'b' then Char.ofNat 8
  else if c = 'f' then Char.ofNat 12
  else if c = 'v' then Char.ofNat 11
  else if c = '0' then Char.ofNat 0
  else c

/-- The value of the JavaScript single-quoted string literal whose body
is l, as produced by the f-string splice of load_session (line 53).  An
unescaped single quote closes the literal early and leaves trailing
garbage, and a trailing backslash escapes the closing quote: both make
the injected script a syntax error, so the result is none and the script
replays nothing. -/
def jsUnquoteSingle : List Char → Option (List Char)
  | [] => some []
  | c :: rest =>
    if c = '\\' then
      match rest with
      | [] => none
      | d :: rest2 => (jsUnquoteSingle rest2).map (fun l => jsEsc d :: l)
    else if c = squote then none
    else (jsUnquoteSingle rest).map (fun l => c :: l)

/-- The character denoted by a JSON string escape (backslash followed by
c); JSON.parse rejects unknown escapes.  Hex escapes (backslash u) are
not modelled and rejected. -/
def jsonUnesc (c : Char) : Option Char :=
  if c = '"' then some '"'
  else if c = '\\' then some '\\'
  else if c = '/' then some '/'
  else if c = 'n' then some (Char.ofNat 10)
  else if c = 't' then some (Char.ofNat 9)
  else if c = 'r' then some (Char.ofNat 13)
  else if c = 'b' then some (Char.ofNat 8)
  else if c = 'f' then some (Char.ofNat 12)
  else none

/-- Parse the body of a JSON string after its opening quote: returns the
content and the characters after the closing quote.  Raw control
characters are rejected, as JSON.parse rejects them. -/
def jsonParseString : List Char → Option (List Char × List Char)
  | [] => none
  | c :: rest =>
    if c = '"' then some ([], rest)
    else if c = '\\' then
      match rest with
      | [] => none
      | d :: rest2 =>
        match jsonUnesc d with
        | none => none
        | some u => (jsonParseString rest2).map (fun sr => (u :: sr.1, sr.2))
    else if c.toNat < 32 then none
    else (jsonParseString rest).map (fun sr => (c :: sr.1, sr.2))

/-- Parse the member list of a JSON object of string values, consuming
the closing brace, which must end the document.  Modelled for documents
without inter-token whitespace and with distinct keys, which is what
JSON.stringify emits (JSON.parse would additionally skip whitespace and
keep the last of duplicate keys).  Fuel bounds the member count; the
character count of the input is always sufficient. -/
def jsonParseMembers : Nat → List Char → Option (List (String × String))
  | 0, _ => none
  | fuel + 1, cs =>
    match cs with
    | '"' :: rest =>
      match jsonParseString rest with
      | none => none
      | some (k, r1) =>
        match r1 with
        | ':' :: '"' :: r2 =>
          match jsonParseString r2 with
          | none => none
          | some (v, r3) =>
            match r3 with
            | ',' :: r4 => (jsonParseMembers fuel r4).map (fun m => (⟨k⟩, ⟨v⟩) :: m)
            | ['}'] => some [(⟨k⟩, ⟨v⟩)]
            | _ => none
        | _ => none
    | _ => none

/-- JSON.parse of a flat string-to-string object document. -/
def jsonParseObjTop (cs : List Char) : Option (List (String × String)) :=
  match cs with
  | c :: rest =>
    if c = '{' then
      if rest = ['}'] then some []
      else jsonParseMembers rest.length rest
    else none
  | [] => none

/-- Embedding of the storage replay of load_session (lines 45 to 53):
the stored JSON text is spliced verbatim into a single-quoted JavaScript
literal, whose value is then fed to JSON.parse; the entries of the
parsed object are written into the session storage of the target origin
in order.  none models an init script that fails (syntax error or a
JSON.parse exception) and therefore replays no entries. -/
def load_restored_storage (d : SessionData) : Option (List (String × String)) :=
  (jsUnquoteSingle d.session_storage.data).bind jsonParseObjTop

/-- Embedding of the cookie replay of load_session (line 43): the stored
cookies are added to the context unchanged. -/
def load_session_cookies (d : SessionData) : List Cookie :=
  d.storage_state.cookies

/-! ## The orchestrator (main, lines 174 to 197)

main runs the pipeline inside one try block; any exception is caught and
printed, and the finally clause closes the browser.  The world supplies
the outcome of every external step. -/

/-- The outcomes the environment hands to one run of main.  sessionSaveOk
is recorded for completeness: save_session catches its own exceptions
(lines 29 and 30), so it cannot influence the run. -/
structure MainWorld where
  launchOk : Bool
  setupOk : Bool
  loginOk : Bool
  navOk : Bool
  page : CatalogPage
  extractFuel : Nat
  writeOk : Bool
  sessionSaveOk : Bool

/-- Observable outcome of one run of main.  outputWritten is the record
sequence written to the output file (none when no complete write
happened); browserCloses counts completed browser.close() calls;
cleanupUnboundError records the UnboundLocalError raised by the finally
clause when browser was never assigned; faultLogged records the printed
error message of the except clause; exitZero tells whether the process
terminates with a zero-equivalent signal. -/
structure MainOutcome where
  outputWritten : Option (List ProductRecord)
  browserCloses : Nat
  cleanupUnboundError : Bool
  faultLogged : Bool
  exitZero : Bool
deriving Repr, DecidableEq

/-- Embedding of main (lines 174 to 197).  When the launch itself raises,
the except clause logs the fault but the finally clause evaluates the
unbound variable browser and raises UnboundLocalError, which propagates
out of asyncio.run: the browser is closed zero times and the process
exits non-zero.  On every later failure the except clause logs, the
finally clause closes the browser once, and main returns normally, so
the process exits zero.  none models a non-terminating collection loop. -/
def mainRun (w : MainWorld) : Option MainOutcome :=
  if w.launchOk = false then some ⟨none, 0, true, true, false⟩
  else if w.setupOk = false then some ⟨none, 1, false, true, true⟩
  else if w.loginOk = false then some ⟨none, 1, false, true, true⟩
  else if w.navOk = false then some ⟨none, 1, false, true, true⟩
  else
    match extract_products w.page w.extractFuel with
    | none => none
    | some (.error _, _) => some ⟨none, 1, false, true, true⟩
    | some (.ok recs, _) =>
      if w.writeOk then some ⟨some recs, 1, false, false, true⟩
      else some ⟨none, 1, false, true, true⟩

/-! ## Auxiliary predicates and concrete runs used by the theorems -/

/-- The delimiter extract_products splits the fragment at position i on. -/
def sepAt : Nat → String
  | 0 => ":"
  | 1 => "Shade"
  | 2 => "Details"
  | _ => "Guarantee"

/-- A character that survives every layer of the session storage splice
unchanged: not a double quote or backslash (JSON escaping), not a single
quote (JavaScript literal boundary), not a control character. -/
def PlainChar (c : Char) : Prop :=
  c ≠ '"' ∧ c ≠ '\\' ∧ c ≠ squote ∧ 32 ≤ c.toNat

instance (c : Char) : Decidable (PlainChar c) := by
  unfold PlainChar; infer_instance

/-- A string all of whose characters are plain. -/
def PlainStr (s : String) : Prop := ∀ c ∈ s.data, PlainChar c

instance (s : String) : Decidable (PlainStr s) := by
  unfold PlainStr; infer_instance

/-- Some pipeline step of the run raises: the browser launch, the
context and page setup, the login, the navigation, the extraction, or
the output write. -/
def StepFails (w : MainWorld) : Prop :=
  w.launchOk = false ∨ w.setupOk = false ∨ w.loginOk = false ∨ w.navOk = false ∨
    (∃ e t, extract_products w.page w.extractFuel = some (.error e, t)) ∨
    w.writeOk = false

/-- A page whose summary announces an expected total of zero. -/
def pageTotalZero : CatalogPage :=
  ⟨some "Showing 0-0 of 0 products", fun _ => [], fun _ => true⟩

/-- A page with no "Showing " summary element at all. -/
def pageNoSummary : CatalogPage :=
  ⟨none, fun _ => [], fun _ => true⟩

/-- A page whose summary text has no integer after the "of" delimiter. -/
def pageBadSummary : CatalogPage :=
  ⟨some "Showing 1-24 of many products", fun _ => [], fun _ => true⟩

/-- A page on which every row read returns the same two rows. -/
def pageTwoRows : CatalogPage :=
  ⟨some "Showing 1-10 of 10 products", fun _ => [⟨"A", []⟩, ⟨"B", []⟩], fun _ => true⟩

/-- A page on which every row read returns three rows. -/
def pageThreeRows : CatalogPage :=
  ⟨some "Showing 1-3 of 3 products", fun _ => [⟨"A", []⟩, ⟨"B", []⟩, ⟨"C", []⟩], fun _ => true⟩

/-- A run in which the login step raises and everything else would have
succeeded. -/
def wLoginFail : MainWorld :=
  ⟨true, true, false, true, pageNoSummary, 5, true, true⟩

/-- A run in which the navigation step raises. -/
def wNavFail : MainWorld :=
  ⟨true, true, true, false, pageNoSummary, 5, true, true⟩

/-- A run in which the browser launch itself raises. -/
def wLaunchFail : MainWorld :=
  ⟨false, true, true, true, pageNoSummary, 5, true, true⟩

/-! ## Lemmas about the split scan -/

theorem isPrefixOf_append_self (l t : List Char) : l.isPrefixOf (l ++ t) = true := by
  induction l with
  | nil => cases t with | nil => rfl | cons c cs => rfl
  | cons c l ih => simp [List.isPrefixOf, ih]

theorem findOcc_single_none (k : Char) : ∀ (s : List Char), k ∉ s → findOcc [k] s = none := by
  intro s
  induction s with
  | nil => intro _; rfl
  | cons c rest ih =>
    intro h
    have h1 : ¬ k = c := fun hk => h (by simp [hk])
    have h2 : k ∉ rest := fun hk => h (List.mem_cons_of_mem c hk)
    simp [findOcc, List.isPrefixOf, h1, ih h2]

theorem findOcc_single_cut (k : Char) :
    ∀ (p rest : List Char), k ∉ p → findOcc [k] (p ++ k :: rest) = some p.length := by
  intro p
  induction p with
  | nil => intro rest _; simp [findOcc, List.isPrefixOf]
  | cons c p ih =>
    intro rest h
    have h1 : ¬ k = c := fun hk => h (by simp [hk])
    have h2 : k ∉ p := fun hk => h (List.mem_cons_of_mem c hk)
    simp [findOcc, List.isPrefixOf, h1, ih rest h2]

theorem findOcc_prefix (sh : Char) (st v : List Char) :
    findOcc (sh :: st) ((sh :: st) ++ v) = some 0 := by
  have h := isPrefixOf_append_self (sh :: st) v
  simp only [List.cons_append] at h ⊢
  simp [findOcc, h]

theorem pySplitGo_none (sep s : List Char) (fuel : Nat) (h : findOcc sep s = none) :
    pySplitGo sep fuel s = [s] := by
  cases fuel with
  | zero => rfl
  | succ f => simp [pySplitGo, h]

theorem drop_len_succ_append (p rest : List Char) (k : Char) :
    (p ++ k :: rest).drop (p.length + 1) = rest := by
  induction p with
  | nil => rfl
  | cons c p ih =>
    simp only [List.cons_append, List.length_cons, List.drop_succ_cons]
    exact ih

theorem pySplitGo_single_cut (k : Char) (p rest : List Char) (fuel : Nat) (h : k ∉ p) :
    pySplitGo [k] (fuel + 1) (p ++ k :: rest) = p :: pySplitGo [k] fuel rest := by
  have h1 := findOcc_single_cut k p rest h
  have h2 : (p ++ k :: rest).take p.length = p := List.take_left p (k :: rest)
  have h3 := drop_len_succ_append p rest k
  simp [pySplitGo, h1, h2, h3]

theorem pySplitGo_prefix_cut (sh : Char) (st v : List Char) (fuel : Nat) :
    pySplitGo (sh :: st) (fuel + 1) ((sh :: st) ++ v) = [] :: pySplitGo (sh :: st) fuel v := by
  have h1 := findOcc_prefix sh st v
  have h3 : (st ++ v).drop st.length = v := List.drop_left st v
  simp only [List.cons_append] at h1 ⊢
  simp [pySplitGo, h1, List.drop_succ_cons, h3]

theorem pySplitList_colon_pair (p v : List Char) (hp : ':' ∉ p) (hv : ':' ∉ v) :
    pySplitList [':'] (p ++ ':' :: v) = [p, v] := by
  unfold pySplitList
  have hl : (p ++ ':' :: v).length = (p.length + v.length) + 1 := by
    simp only [List.length_append, List.length_cons]; omega
  rw [hl, pySplitGo_single_cut ':' p v _ hp,
    pySplitGo_none [':'] v _ (findOcc_single_none ':' v hv)]

theorem pySplitList_colon_first (p v1 v2 : List Char) (hp : ':' ∉ p) (hv : ':' ∉ v1) :
    ∃ tail, pySplitList [':'] (p ++ ':' :: (v1 ++ ':' :: v2)) = p :: v1 :: tail := by
  unfold pySplitList
  have hl : (p ++ ':' :: (v1 ++ ':' :: v2)).length
      = ((p.length + v1.length + v2.length) + 1) + 1 := by
    simp only [List.length_append, List.length_cons]; omega
  rw [hl, pySplitGo_single_cut ':' p _ _ hp, pySplitGo_single_cut ':' v1 v2 _ hv]
  exact ⟨_, rfl⟩

theorem pySplitList_label (sh : Char) (st v : List Char) (h : findOcc (sh :: st) v = none) :
    pySplitList (sh :: st) ((sh :: st) ++ v) = [[], v] := by
  unfold pySplitList
  have hl : ((sh :: st) ++ v).length = (st.length + v.length) + 1 := by
    simp only [List.length_append, List.length_cons]; omega
  rw [hl, pySplitGo_prefix_cut, pySplitGo_none (sh :: st) v _ h]

/-! ## Lemmas about the field parser -/

theorem pyField_eq_of_found (texts : List String) (idx : Nat) (sep t : String)
    (ht : texts[idx]? = some t) :
    pyField texts idx sep =
      (match pySplit t sep with
       | _ :: x :: _ => .ok (pyStrip x)
       | _ => .error .malformedFragment) := by
  unfold pyField
  rw [ht]

theorem pyField_colon (texts : List String) (t : String) (idx : Nat) (pre v : List Char)
    (ht : texts[idx]? = some t) (hd : t.data = pre ++ ':' :: v)
    (hp : ':' ∉ pre) (hv : ':' ∉ v) :
    pyField texts idx ":" = .ok ⟨stripChars v⟩ := by
  rw [pyField_eq_of_found texts idx ":" t ht]
  unfold pySplit
  rw [show (":" : String).data = [':'] from rfl, hd, pySplitList_colon_pair pre v hp hv]
  rfl

theorem pyField_colon_two (texts : List String) (t : String) (idx : Nat)
    (pre v1 v2 : List Char)
    (ht : texts[idx]? = some t) (hd : t.data = pre ++ ':' :: (v1 ++ ':' :: v2))
    (hp : ':' ∉ pre) (hv : ':' ∉ v1) :
    pyField texts idx ":" = .ok ⟨stripChars v1⟩ := by
  rw [pyField_eq_of_found texts idx ":" t ht]
  unfold pySplit
  rw [show (":" : String).data = [':'] from rfl, hd]
  obtain ⟨tail, htail⟩ := pySplitList_colon_first pre v1 v2 hp hv
  rw [htail]
  rfl

theorem pyField_label (texts : List String) (t : String) (idx : Nat) (sep : String)
    (sh : Char) (st v : List Char)
    (ht : texts[idx]? = some t) (hs : sep.data = sh :: st) (hd : t.data = (sh :: st) ++ v)
    (hocc : findOcc (sh :: st) v = none) :
    pyField texts idx sep = .ok ⟨stripChars v⟩ := by
  rw [pyField_eq_of_found texts idx sep t ht]
  unfold pySplit
  rw [hs, hd, pySplitList_label sh st v hocc]
  rfl

theorem pyField_spec (texts : List String) (idx : Nat) (sep : String)
    (h : ∀ t, texts[idx]? = some t → 2 ≤ (pySplit t sep).length) :
    ∃ s, pyField texts idx sep = .ok s ∧ (texts.length ≤ idx → s = "") := by
  cases ht : texts[idx]? with
  | none => exact ⟨"", by unfold pyField; rw [ht], fun _ => rfl⟩
  | some t =>
    have h2 := h t ht
    have hlt : idx < texts.length := by
      by_contra hge
      rw [List.getElem?_eq_none (by omega)] at ht
      cases ht
    rcases hs : pySplit t sep with _ | ⟨a, rest⟩
    · rw [hs] at h2; simp at h2
    · rcases rest with _ | ⟨b, rest2⟩
      · rw [hs] at h2; simp at h2
      · refine ⟨pyStrip b, ?_, fun hle => absurd hlt (by omega)⟩
        rw [pyField_eq_of_found texts idx sep t ht, hs]

theorem parseItem_eval (it : RawItem) (s0 s1 s2 s3 : String)
    (e0 : pyField it.innerTexts 0 ":" = .ok s0)
    (e1 : pyField it.innerTexts 1 "Shade" = .ok s1)
    (e2 : pyField it.innerTexts 2 "Details" = .ok s2)
    (e3 : pyField it.innerTexts 3 "Guarantee" = .ok s3) :
    parseItem it = .ok ⟨pyStrip it.titleText, s0, s1, s2, s3⟩ := by
  unfold parseItem
  rw [e0, e1, e2, e3]
  rfl

/-! ## Lemmas about the session storage splice -/

theorem jsonEscape_cons (c : Char) (rest : List Char) :
    jsonEscape (c :: rest) =
      (if c = '"' then ['\\', '"'] else if c = '\\' then ['\\', '\\'] else [c])
        ++ jsonEscape rest := rfl

theorem jsonEscape_plain (l : List Char) (h : ∀ c ∈ l, c ≠ '"' ∧ c ≠ '\\') :
    jsonEscape l = l := by
  induction l with
  | nil => rfl
  | cons c rest ih =>
    have hc := h c (by simp)
    rw [jsonEscape_cons, if_neg hc.1, if_neg hc.2, ih (fun x hx => h x (by simp [hx]))]
    rfl

theorem jsUnquoteSingle_cons (c : Char) (rest : List Char) :
    jsUnquoteSingle (c :: rest) =
      if c = '\\' then
        (match rest with
         | [] => none
         | d :: rest2 => (jsUnquoteSingle rest2).map (fun l => jsEsc d :: l))
      else if c = squote then none
      else (jsUnquoteSingle rest).map (fun l => c :: l) := by
  rw [jsUnquoteSingle.eq_def]

theorem jsUnquoteSingle_plain (l : List Char) (h : ∀ c ∈ l, c ≠ '\\' ∧ c ≠ squote) :
    jsUnquoteSingle l = some l := by
  induction l with
  | nil => rfl
  | cons c rest ih =>
    have hc := h c (by simp)
    rw [jsUnquoteSingle_cons, if_neg hc.1, if_neg hc.2, ih (fun x hx => h x (by simp [hx]))]
    rfl

theorem not_special_of_mem_jsonQuote (s : String) (hs : PlainStr s) :
    ∀ c ∈ jsonQuote s, c ≠ '\\' ∧ c ≠ squote := by
  intro c hc
  have hesc : jsonEscape s.data = s.data :=
    jsonEscape_plain s.data (fun x hx => ⟨(hs x hx).1, (hs x hx).2.1⟩)
  unfold jsonQuote at hc
  rw [hesc] at hc
  rcases List.mem_cons.mp hc with h | h
  · subst h; exact ⟨by decide, by decide⟩
  · rcases List.mem_append.mp h with h | h
    · exact ⟨(hs c h).2.1, (hs c h).2.2.1⟩
    · simp at h; subst h; exact ⟨by decide, by decide⟩

theorem not_special_of_mem_jsonPair (kv : String × String)
    (h1 : PlainStr kv.1) (h2 : PlainStr kv.2) :
    ∀ c ∈ jsonPair kv, c ≠ '\\' ∧ c ≠ squote := by
  intro c hc
  unfold jsonPair at hc
  rcases List.mem_append.mp hc with h | h
  · exact not_special_of_mem_jsonQuote kv.1 h1 c h
  · rcases List.mem_cons.mp h with h | h
    · subst h; exact ⟨by decide, by decide⟩
    · exact not_special_of_mem_jsonQuote kv.2 h2 c h

theorem not_special_of_mem_joinPairs :
    ∀ (m : List (String × String)),
      (∀ kv ∈ m, PlainStr kv.1 ∧ PlainStr kv.2) →
      ∀ c ∈ joinPairs m, c ≠ '\\' ∧ c ≠ squote := by
  intro m
  induction m with
  | nil => intro _ c hc; simp [joinPairs] at hc
  | cons kv rest ih =>
    intro hm c hc
    have hkv := hm kv (by simp)
    rcases rest with _ | ⟨kv2, rest2⟩
    · exact not_special_of_mem_jsonPair kv hkv.1 hkv.2 c hc
    · rw [show joinPairs (kv :: kv2 :: rest2)
          = jsonPair kv ++ ',' :: joinPairs (kv2 :: rest2) from rfl] at hc
      rcases List.mem_append.mp hc with h | h
      · exact not_special_of_mem_jsonPair kv hkv.1 hkv.2 c h
      · rcases List.mem_cons.mp h with h | h
        · subst h; exact ⟨by decide, by decide⟩
        · exact ih (fun x hx => hm x (by simp [hx])) c h

theorem not_special_of_mem_jsonObj (m : List (String × String))
    (hm : ∀ kv ∈ m, PlainStr kv.1 ∧ PlainStr kv.2) :
    ∀ c ∈ (jsonObj m).data, c ≠ '\\' ∧ c ≠ squote := by
  intro c hc
  rw [show (jsonObj m).data = '{' :: (joinPairs m ++ ['}']) from rfl] at hc
  rcases List.mem_cons.mp hc with h | h
  · subst h; exact ⟨by decide, by decide⟩
  · rcases List.mem_append.mp h with h | h
    · exact not_special_of_mem_joinPairs m hm c h
    · simp at h; subst h; exact ⟨by decide, by decide⟩

theorem jsonParseString_cons (c : Char) (rest : List Char) :
    jsonParseString (c :: rest) =
      if c = '"' then some ([], rest)
      else if c = '\\' then
        (match rest with
         | [] => none
         | d :: rest2 =>
           match jsonUnesc d with
           | none => none
           | some u => (jsonParseString rest2).map (fun sr => (u :: sr.1, sr.2)))
      else if c.toNat < 32 then none
      else (jsonParseString rest).map (fun sr => (c :: sr.1, sr.2)) := by
  rw [jsonParseString.eq_def]

theorem jsonParseString_append (s r : List Char)
    (h : ∀ c ∈ s, c ≠ '"' ∧ c ≠ '\\' ∧ 32 ≤ c.toNat) :
    jsonParseString (s ++ '"' :: r) = some (s, r) := by
  induction s with
  | nil => rw [List.nil_append, jsonParseString_cons, if_pos rfl]
  | cons c s ih =>
    have hc := h c (by simp)
    have h32 : ¬ c.toNat < 32 := by omega
    rw [List.cons_append, jsonParseString_cons, if_neg hc.1, if_neg hc.2.1, if_neg h32,
      ih (fun x hx => h x (by simp [hx]))]
    rfl

theorem joinPairs_cons_head (kv : String × String) (rest : List (String × String)) :
    ∃ t, joinPairs (kv :: rest) = '"' :: t := by
  rcases rest with _ | ⟨kv2, rest2⟩
  · exact ⟨_, rfl⟩
  · exact ⟨_, rfl⟩

theorem length_le_joinPairs :
    ∀ (m : List (String × String)), m.length ≤ (joinPairs m ++ ['}']).length := by
  intro m
  induction m with
  | nil => simp
  | cons kv rest ih =>
    rcases rest with _ | ⟨kv2, rest2⟩
    · simp
    · rw [show joinPairs (kv :: kv2 :: rest2)
          = jsonPair kv ++ ',' :: joinPairs (kv2 :: rest2) from rfl]
      simp only [List.length_append, List.length_cons] at ih ⊢
      omega

theorem plain_noquote (s : String) (hs : PlainStr s) :
    ∀ c ∈ s.data, c ≠ '"' ∧ c ≠ '\\' ∧ 32 ≤ c.toNat :=
  fun c hc => ⟨(hs c hc).1, (hs c hc).2.1, (hs c hc).2.2.2⟩

theorem jsonParseMembers_step (f : Nat) (kd vd r : List Char)
    (hkd : ∀ c ∈ kd, c ≠ '"' ∧ c ≠ '\\' ∧ 32 ≤ c.toNat)
    (hvd : ∀ c ∈ vd, c ≠ '"' ∧ c ≠ '\\' ∧ 32 ≤ c.toNat) :
    jsonParseMembers (f + 1) ('"' :: (kd ++ '"' :: (':' :: '"' :: (vd ++ '"' :: r)))) =
      (match r with
       | ',' :: r4 =>
         (jsonParseMembers f r4).map (fun m => ((⟨kd⟩ : String), (⟨vd⟩ : String)) :: m)
       | ['}'] => some [((⟨kd⟩ : String), (⟨vd⟩ : String))]
       | _ => none) := by
  have h1 := jsonParseString_append kd (':' :: '"' :: (vd ++ '"' :: r)) hkd
  have h2 := jsonParseString_append vd r hvd
  simp only [jsonParseMembers, h1, h2]

theorem jsonParseMembers_encode :
    ∀ (m : List (String × String)) (fuel : Nat), m ≠ [] →
      (∀ kv ∈ m, PlainStr kv.1 ∧ PlainStr kv.2) → m.length ≤ fuel →
      jsonParseMembers fuel (joinPairs m ++ ['}']) = some m := by
  intro m
  induction m with
  | nil => intro fuel h; exact absurd rfl h
  | cons kv rest ih =>
    intro fuel _ hm hf
    obtain ⟨k, v⟩ := kv
    obtain ⟨kd⟩ := k
    obtain ⟨vd⟩ := v
    have hk : PlainStr ⟨kd⟩ := (hm ((⟨kd⟩ : String), (⟨vd⟩ : String)) (by simp)).1
    have hv : PlainStr ⟨vd⟩ := (hm ((⟨kd⟩ : String), (⟨vd⟩ : String)) (by simp)).2
    have hesck : jsonEscape kd = kd :=
      jsonEscape_plain kd (fun c hc => ⟨(hk c hc).1, (hk c hc).2.1⟩)
    have hescv : jsonEscape vd = vd :=
      jsonEscape_plain vd (fun c hc => ⟨(hv c hc).1, (hv c hc).2.1⟩)
    obtain ⟨f, rfl⟩ : ∃ f, fuel = f + 1 := ⟨fuel - 1, by simp at hf; omega⟩
    rcases rest with _ | ⟨kv2, rest2⟩
    · have hshape : joinPairs [((⟨kd⟩ : String), (⟨vd⟩ : String))] ++ ['}']
          = '"' :: (kd ++ '"' :: (':' :: '"' :: (vd ++ '"' :: ['}']))) := by
        simp [joinPairs, jsonPair, jsonQuote, hesck, hescv]
      rw [hshape, jsonParseMembers_step f kd vd ['}'] (plain_noquote _ hk) (plain_noquote _ hv)]
      rfl
    · have hshape : joinPairs (((⟨kd⟩ : String), (⟨vd⟩ : String)) :: kv2 :: rest2) ++ ['}']
          = '"' :: (kd ++ '"' :: (':' :: '"' :: (vd ++ '"' ::
              (',' :: (joinPairs (kv2 :: rest2) ++ ['}']))))) := by
        rw [show joinPairs (((⟨kd⟩ : String), (⟨vd⟩ : String)) :: kv2 :: rest2)
            = jsonPair (⟨kd⟩, ⟨vd⟩) ++ ',' :: joinPairs (kv2 :: rest2) from rfl]
        simp [jsonPair, jsonQuote, hesck, hescv]
      rw [hshape, jsonParseMembers_step f kd vd _ (plain_noquote _ hk) (plain_noquote _ hv)]
      have hrec := ih f (by simp) (fun x hx => hm x (by simp [hx])) (by simp at hf ⊢; omega)
      show (jsonParseMembers f (joinPairs (kv2 :: rest2) ++ ['}'])).map
          (fun m => ((⟨kd⟩ : String), (⟨vd⟩ : String)) :: m)
        = some (((⟨kd⟩ : String), (⟨vd⟩ : String)) :: kv2 :: rest2)
      rw [hrec]
      rfl

theorem jsonParseObjTop_cons (c : Char) (rest : List Char) :
    jsonParseObjTop (c :: rest) =
      if c = '{' then
        if rest = ['}'] then some []
        else jsonParseMembers rest.length rest
      else none := rfl

theorem jsonParseObjTop_encode (m : List (String × String)) (hne : m ≠ [])
    (hm : ∀ kv ∈ m, PlainStr kv.1 ∧ PlainStr kv.2) :
    jsonParseObjTop (jsonObj m).data = some m := by
  rcases m with _ | ⟨kv, rest⟩
  · exact absurd rfl hne
  · obtain ⟨t, ht⟩ := joinPairs_cons_head kv rest
    have hne2 : joinPairs (kv :: rest) ++ ['}'] ≠ ['}'] := by
      rw [ht]; simp
    rw [show (jsonObj (kv :: rest)).data = '{' :: (joinPairs (kv :: rest) ++ ['}']) from rfl,
      jsonParseObjTop_cons, if_pos rfl, if_neg hne2]
    exact jsonParseMembers_encode (kv :: rest) _ (by simp) hm (length_le_joinPairs (kv :: rest))

/-! ## Lemmas about the collection loop and the orchestrator -/

theorem collectLoop_succ (p : CatalogPage) (total : Int) (fuel i : Nat) (prev : Int) (trig : Nat) :
    collectLoop p total (fuel + 1) i prev trig =
      if (rowCount p i : Int) = prev then some ⟨.ok (some i), trig⟩
      else if (rowCount p i : Int) < total then
        if p.growthOk i then collectLoop p total fuel (i + 1) ((rowCount p i : Int)) (trig + 1)
        else some ⟨.error .timeout, trig + 1⟩
      else some ⟨.ok (some i), trig⟩ := by
  rw [collectLoop.eq_def]

theorem pyField_out (texts : List String) (idx : Nat) (sep : String)
    (h : texts.length ≤ idx) :
    pyField texts idx sep = .ok "" := by
  unfold pyField
  rw [List.getElem?_eq_none h]

theorem mainRun_step_failure (w : MainWorld) (h : StepFails w) (o : MainOutcome)
    (ho : mainRun w = some o) :
    o.outputWritten = none ∧ o.faultLogged = true ∧ o.exitZero = w.launchOk := by
  unfold mainRun at ho
  by_cases h1 : w.launchOk = false
  · rw [if_pos h1] at ho
    injection ho with ho2
    subst ho2
    exact ⟨rfl, rfl, by rw [h1]⟩
  · have h1t : w.launchOk = true := by revert h1; cases w.launchOk <;> simp
    rw [if_neg h1] at ho
    by_cases h2 : w.setupOk = false
    · rw [if_pos h2] at ho
      injection ho with ho2
      subst ho2
      exact ⟨rfl, rfl, by rw [h1t]⟩
    · rw [if_neg h2] at ho
      by_cases h3 : w.loginOk = false
      · rw [if_pos h3] at ho
        injection ho with ho2
        subst ho2
        exact ⟨rfl, rfl, by rw [h1t]⟩
      · rw [if_neg h3] at ho
        by_cases h4 : w.navOk = false
        · rw [if_pos h4] at ho
          injection ho with ho2
          subst ho2
          exact ⟨rfl, rfl, by rw [h1t]⟩
        · rw [if_neg h4] at ho
          rcases hx : extract_products w.page w.extractFuel with _ | ⟨res, t⟩
          · rw [hx] at ho
            simp at ho
          · rw [hx] at ho
            rcases res with e | recs
            · simp at ho
              subst ho
              exact ⟨rfl, rfl, by rw [h1t]⟩
            · rcases h with hh | hh | hh | hh | ⟨e, t2, hh⟩ | hh
              · exact absurd hh h1
              · exact absurd hh h2
              · exact absurd hh h3
              · exact absurd hh h4
              · rw [hx] at hh
                simp at hh
              · simp only [hh] at ho
                simp at ho
                subst ho
                exact ⟨rfl, rfl, by rw [h1t]⟩

/-! ## The claims -/

/-- C1: with a parsed expected total of 0 the loop body never runs, so no
growth trigger is issued (triggers = 0); but instead of returning the
empty record sequence, extract_products raises: the Python variable rows
was never assigned, and the trailing for loop hits an UnboundLocalError
(surfaced as RuntimeError).  This settles C1 as a code bug: the spec
expects the empty set, the code crashes. -/
theorem extract_products_total_zero_unbound (fuel : Nat) :
    extract_products pageTotalZero fuel = some (.error .unboundRows, 0) := rfl

/-- C2 (amended): when any pipeline step fails, the fault is logged and
no output is written, but main swallows the exception, so the process
exits with a zero-equivalent status whenever the browser launch itself
succeeded (when the launch fails, the unbound-browser cleanup error makes
the exit non-zero).  The claimed non-zero exit on every failure does not
hold. -/
theorem mainRun_failure_logs_no_output (w : MainWorld) (h : StepFails w) (o : MainOutcome)
    (ho : mainRun w = some o) :
    o.outputWritten = none ∧ o.faultLogged = true ∧ o.exitZero = w.launchOk :=
  mainRun_step_failure w h o ho

/-- C2 witness: a run whose navigation step fails writes no output, logs
the fault, and exits zero (its launch succeeded). -/
theorem mainRun_failure_logs_no_output_witness :
    (⟨none, 1, false, true, true⟩ : MainOutcome).outputWritten = none ∧
    (⟨none, 1, false, true, true⟩ : MainOutcome).faultLogged = true ∧
    (⟨none, 1, false, true, true⟩ : MainOutcome).exitZero = wNavFail.launchOk :=
  mainRun_failure_logs_no_output wNavFail (Or.inr (Or.inr (Or.inr (Or.inl rfl)))) _ rfl

/-- C2 counterexample: a run whose login step fails terminates with a
zero-equivalent exit (exitZero = true in the outcome), contradicting the
claimed non-zero-equivalent termination on failure. -/
theorem mainRun_login_failure_exits_zero :
    StepFails wLoginFail ∧ mainRun wLoginFail = some ⟨none, 1, false, true, true⟩ :=
  ⟨Or.inr (Or.inr (Or.inl rfl)), rfl⟩

/-- C3: for every labeled fragment present in a raw item the parser
strips the known label prefix up to the delimiter of that position (the
colon for the identifier fragment, the label word itself for the other
three) and trims surrounding whitespace. -/
theorem parseItem_strips_label_prefixes (title : String) (pre v0 v1 v2 v3 : List Char)
    (h0a : ':' ∉ pre) (h0b : ':' ∉ v0)
    (h1 : findOcc ("Shade" : String).data v1 = none)
    (h2 : findOcc ("Details" : String).data v2 = none)
    (h3 : findOcc ("Guarantee" : String).data v3 = none) :
    parseItem ⟨title, [⟨pre ++ ':' :: v0⟩, ⟨("Shade" : String).data ++ v1⟩,
        ⟨("Details" : String).data ++ v2⟩, ⟨("Guarantee" : String).data ++ v3⟩]⟩ =
      .ok ⟨pyStrip title, ⟨stripChars v0⟩, ⟨stripChars v1⟩, ⟨stripChars v2⟩,
        ⟨stripChars v3⟩⟩ := by
  refine parseItem_eval _ _ _ _ _ ?_ ?_ ?_ ?_
  · exact pyField_colon _ _ 0 pre v0 rfl rfl h0a h0b
  · exact pyField_label _ _ 1 "Shade" 'S' ['h', 'a', 'd', 'e'] v1 rfl rfl rfl h1
  · exact pyField_label _ _ 2 "Details" 'D' ['e', 't', 'a', 'i', 'l', 's'] v2 rfl rfl rfl h2
  · exact pyField_label _ _ 3 "Guarantee" 'G' ['u', 'a', 'r', 'a', 'n', 't', 'e', 'e'] v3
      rfl rfl rfl h3

/-- C3 witness: the identifier fragment "ID: 48213" parses to id =
"48213", and the other labeled fragments keep what follows their label
word, trimmed. -/
theorem parseItem_strips_label_prefixes_witness :
    parseItem ⟨"Glow Lipstick",
        ["ID: 48213", "Shade: Ruby", "Details: matte", "Guarantee: 1 year"]⟩ =
      .ok ⟨"Glow Lipstick", "48213", ": Ruby", ": matte", ": 1 year"⟩ :=
  parseItem_strips_label_prefixes "Glow Lipstick" ("ID" : String).data (" 48213" : String).data
    (": Ruby" : String).data (": matte" : String).data (": 1 year" : String).data
    (by decide) (by decide) (by decide) (by decide) (by decide)

/-- C4: if the current row-count read equals the previous count, the
loop returns the rows of the current read immediately, with the trigger
count unchanged, whatever the expected total and remaining fuel. -/
theorem collectLoop_stabilizes_on_equal_reads (p : CatalogPage) (total : Int)
    (fuel i : Nat) (prev : Int) (trig : Nat)
    (h : (rowCount p i : Int) = prev) :
    collectLoop p total (fuel + 1) i prev trig = some ⟨.ok (some i), trig⟩ := by
  rw [collectLoop_succ, if_pos h]

/-- C4 witness: a page stuck at two rows with an expected total of ten
stabilizes immediately when the read equals the previous count. -/
theorem collectLoop_stabilizes_on_equal_reads_witness :
    (rowCount pageTwoRows 0 : Int) = 2 ∧ ((2 : Int) < 10) ∧
    collectLoop pageTwoRows 10 5 0 2 0 = some ⟨.ok (some 0), 0⟩ :=
  ⟨by decide, by decide, collectLoop_stabilizes_on_equal_reads pageTwoRows 10 4 0 2 0 (by decide)⟩

/-- C5: once the current row count reaches or exceeds the expected
total, the loop returns the rows of the current read and issues no
further growth trigger (the trigger count is unchanged). -/
theorem collectLoop_stops_at_expected_total (p : CatalogPage) (total : Int)
    (fuel i : Nat) (prev : Int) (trig : Nat)
    (h : total ≤ (rowCount p i : Int)) :
    collectLoop p total (fuel + 1) i prev trig = some ⟨.ok (some i), trig⟩ := by
  rw [collectLoop_succ]
  by_cases hc : (rowCount p i : Int) = prev
  · rw [if_pos hc]
  · rw [if_neg hc, if_neg (not_lt.mpr h)]

/-- C5 witness: with all three expected rows already present, the loop
exits on its first read with zero growth triggers. -/
theorem collectLoop_stops_at_expected_total_witness :
    ((3 : Int) ≤ (rowCount pageThreeRows 0 : Int)) ∧
    collectLoop pageThreeRows 3 7 0 (-1) 0 = some ⟨.ok (some 0), 0⟩ :=
  ⟨by decide, collectLoop_stops_at_expected_total pageThreeRows 3 6 0 (-1) 0 (by decide)⟩

/-- C6: a raw item with fewer than four labeled fragments parses without
raising, provided each fragment that is present does contain its
delimiter; every absent fragment yields the empty string for its field,
and the name is always taken from the title position. -/
theorem parseItem_defaults_missing_fragments (title : String) (l : List String)
    (_hlen : l.length < 4)
    (hwf : ∀ (i : Nat) (hi : i < l.length), 2 ≤ (pySplit (l.get ⟨i, hi⟩) (sepAt i)).length) :
    ∃ r, parseItem ⟨title, l⟩ = .ok r ∧ r.name = pyStrip title ∧
      (l.length ≤ 0 → r.id = "") ∧ (l.length ≤ 1 → r.shade = "") ∧
      (l.length ≤ 2 → r.details = "") ∧ (l.length ≤ 3 → r.guarantee = "") := by
  have spec : ∀ idx, ∃ s, pyField l idx (sepAt idx) = .ok s ∧ (l.length ≤ idx → s = "") := by
    intro idx
    apply pyField_spec
    intro t ht
    obtain ⟨hi, heq⟩ := List.getElem?_eq_some_iff.mp ht
    have hin := hwf idx hi
    rw [List.get_eq_getElem, heq] at hin
    exact hin
  obtain ⟨s0, e0, d0⟩ := spec 0
  obtain ⟨s1, e1, d1⟩ := spec 1
  obtain ⟨s2, e2, d2⟩ := spec 2
  obtain ⟨s3, e3, d3⟩ := spec 3
  exact ⟨⟨pyStrip title, s0, s1, s2, s3⟩,
    parseItem_eval ⟨title, l⟩ s0 s1 s2 s3 e0 e1 e2 e3, rfl, d0, d1, d2, d3⟩

/-- C6 witness: an item with zero labeled fragments parses to a record
whose four labeled fields are all empty. -/
theorem parseItem_defaults_missing_fragments_witness :
    ∃ r, parseItem ⟨"Velvet Blush", ([] : List String)⟩ = .ok r ∧
      r.name = pyStrip "Velvet Blush" ∧
      (([] : List String).length ≤ 0 → r.id = "") ∧
      (([] : List String).length ≤ 1 → r.shade = "") ∧
      (([] : List String).length ≤ 2 → r.details = "") ∧
      (([] : List String).length ≤ 3 → r.guarantee = "") :=
  parseItem_defaults_missing_fragments "Velvet Blush" [] (by decide)
    (fun _ hi => absurd hi (by simp))

/-- C7: whenever the summary text read fails to produce an expected
total (absent element, missing "of" segment, or unparsable integer), the
collection aborts with that error before the loop, with zero growth
triggers issued. -/
theorem collectAll_summary_failure_no_triggers (p : CatalogPage) (fuel : Nat) (e : ExtractErr)
    (h : parseSummaryTotal p.summaryText = .error e) :
    collectAll p fuel = some ⟨.error e, 0⟩ := by
  unfold collectAll
  rw [h]

/-- C7 witness: an absent summary is a timeout, a summary without a
parsable integer is a data error; both abort with zero triggers. -/
theorem collectAll_summary_failure_no_triggers_witness :
    parseSummaryTotal pageNoSummary.summaryText = .error .timeout ∧
    parseSummaryTotal pageBadSummary.summaryText = .error .dataError ∧
    collectAll pageNoSummary 3 = some ⟨.error .timeout, 0⟩ ∧
    collectAll pageBadSummary 3 = some ⟨.error .dataError, 0⟩ :=
  ⟨rfl, rfl, collectAll_summary_failure_no_triggers pageNoSummary 3 .timeout rfl,
    collectAll_summary_failure_no_triggers pageBadSummary 3 .dataError rfl⟩

/-- C8 (amended): for a non-empty snapshot whose storage keys and values
contain no double quote, backslash, single quote, or control character
(and whose keys are distinct, the domain on which the JSON.parse model is
exact), restoring after saving yields exactly the captured cookie jar and
storage entries.  Snapshots with such characters break the single-quoted
init-script splice, so the unrestricted round trip claimed does not
hold. -/
theorem session_roundtrip_plain_entries (cookies : List Cookie) (m : List (String × String))
    (hne : m ≠ []) (_hnd : (m.map Prod.fst).Nodup)
    (hm : ∀ kv ∈ m, PlainStr kv.1 ∧ PlainStr kv.2) :
    load_session_cookies (save_session cookies m) = cookies ∧
    load_restored_storage (save_session cookies m) = some m := by
  constructor
  · rfl
  · show (jsUnquoteSingle (jsonObj m).data).bind jsonParseObjTop = some m
    rw [jsUnquoteSingle_plain (jsonObj m).data (not_special_of_mem_jsonObj m hm)]
    show jsonParseObjTop (jsonObj m).data = some m
    exact jsonParseObjTop_encode m hne hm

/-- C8 witness: a snapshot with one cookie and two plain storage entries
round-trips exactly. -/
theorem session_roundtrip_plain_entries_witness :
    load_session_cookies (save_session [⟨"sid", "x"⟩] [("theme", "dark"), ("cart", "3")])
      = [⟨"sid", "x"⟩] ∧
    load_restored_storage (save_session [⟨"sid", "x"⟩] [("theme", "dark"), ("cart", "3")])
      = some [("theme", "dark"), ("cart", "3")] :=
  session_roundtrip_plain_entries [⟨"sid", "x"⟩] [("theme", "dark"), ("cart", "3")]
    (by decide) (by decide) (by decide)

/-- C8 counterexample: a non-empty snapshot whose storage value contains
a double quote does not round-trip: JSON.stringify escapes the quote with
a backslash, the JavaScript single-quoted literal of the injected script
swallows that backslash, and JSON.parse then fails, so no entries are
restored (the cookies still are). -/
theorem session_roundtrip_dquote_breaks :
    ([(("k" : String), ("a\"b" : String))] ≠ ([] : List (String × String))) ∧
    load_session_cookies (save_session [⟨"sid", "x"⟩] [("k", "a\"b")]) = [⟨"sid", "x"⟩] ∧
    load_restored_storage (save_session [⟨"sid", "x"⟩] [("k", "a\"b")]) = none :=
  ⟨by decide, rfl, rfl⟩

/-- C9: when the browser launch itself raises, the except clause logs
the fault but the finally clause evaluates the never-assigned browser
variable: the browser is released zero times, an UnboundLocalError
escapes, and the process dies non-zero.  The claimed release on every
exit path fails on the acquisition-failure path, a slip in the code. -/
theorem mainRun_launch_failure_zero_releases :
    mainRun wLaunchFail = some ⟨none, 0, true, true, false⟩ := rfl

/-- C10: the parsed id is the text strictly between the first and the
second colon of the identifier fragment, trimmed: a value that itself
contains a colon is truncated at it. -/
theorem parseItem_id_truncated_at_second_colon (title : String) (pre v1 v2 : List Char)
    (hp : ':' ∉ pre) (hv : ':' ∉ v1) :
    parseItem ⟨title, [⟨pre ++ ':' :: (v1 ++ ':' :: v2)⟩]⟩ =
      .ok ⟨pyStrip title, ⟨stripChars v1⟩, "", "", ""⟩ := by
  refine parseItem_eval _ _ _ _ _ ?_ ?_ ?_ ?_
  · exact pyField_colon_two _ _ 0 pre v1 v2 rfl rfl hp hv
  · exact pyField_out _ 1 _ (by simp)
  · exact pyField_out _ 2 _ (by simp)
  · exact pyField_out _ 3 _ (by simp)

/-- C10 witness: "ID: 48:21" parses to id = "48", not "48:21". -/
theorem parseItem_id_truncated_at_second_colon_witness :
    parseItem ⟨"Glow Lipstick", ["ID: 48:21"]⟩ =
      .ok ⟨"Glow Lipstick", "48", "", "", ""⟩ :=
  parseItem_id_truncated_at_second_colon "Glow Lipstick" ("ID" : String).data
    (" 48" : String).data ("21" : String).data (by decide) (by decide)

end IdenScrape
